import Mathlib

/-!
Verification development for the Zabbix-Extensions-Apps network-map subsystem.

Shallow embedding of:
* `Network Map V2/network_map/report_data.py` (aggregation and export filters),
* `Network Map/network_map/zabbix_integration.py`, `helpers.py`, `state.py`
  (live 24h graph builder, IP classification, topology cache),
* `Docker Network Map/Windows/network_map/report_builders.py`
  (collision-resolution layout and draw.io document structure).

Machine integers are modelled as `Nat`; layout coordinates as `ℚ`
(exact arithmetic; every value arising in the proved scenarios is dyadic, so
the Python float computation is exact there as well).  Fallible parsing
(`json.loads`, `ipaddress.ip_address`) is modelled with `Option`.
-/

namespace ZabbixNetworkMap

/-! ### Embedding of the `ipaddress` usage

`ipaddress.ip_address(s)` on the dotted-quad strings used by this repository:
exactly four decimal parts separated by dots, each 1–3 digits, value ≤ 255,
no leading zeros.  (IPv6 literals are not modelled.)  The parsed address is
its 32-bit value as a `Nat`. -/

/-- Split a character list at every occurrence of `sep` (the dotted-quad
splitting of `ipaddress`; an empty input yields one empty part). -/
def splitOnAux (sep : Char) : List Char → List Char → List (List Char)
  | [], acc => [acc.reverse]
  | c :: cs, acc =>
    if c = sep then acc.reverse :: splitOnAux sep cs []
    else splitOnAux sep cs (c :: acc)

def splitOnChar (sep : Char) (l : List Char) : List (List Char) :=
  splitOnAux sep l []

/-- One octet of a dotted quad: 1–3 decimal digits, no leading zero unless the
octet is exactly `0`, value at most 255. -/
def parseOctet (l : List Char) : Option Nat :=
  if l.length = 0 ∨ l.length > 3 then none
  else if ¬ l.all Char.isDigit then none
  else if l.length > 1 ∧ l.headD '0' = '0' then none
  else
    let n := l.foldl (fun a c => a * 10 + (c.toNat - 48)) 0
    if n ≤ 255 then some n else none

def parseIPv4 (s : String) : Option Nat :=
  match splitOnChar '.' s.data with
  | [a, b, c, d] =>
    match parseOctet a, parseOctet b, parseOctet c, parseOctet d with
    | some pa, some pb, some pc, some pd =>
      some (((pa * 256 + pb) * 256 + pc) * 256 + pd)
    | _, _, _, _ => none
  | _ => none

/-- Membership in the configured private/internal ranges
`10.0.0.0/8`, `192.168.0.0/16`, `172.16.0.0/12` (`PRIVATE_NETWORKS` in
`Network Map/network_map/config.py`, `INTERNAL_NETWORKS` in
`Network Map/network_map/report_config.py`). -/
def inPrivateNetworks (ip : Nat) : Bool :=
  ip / 16777216 == 10 || ip / 65536 == 49320 || ip / 1048576 == 2753

/-- `IPv4Address.is_loopback`: membership in `127.0.0.0/8`. -/
def isLoopback (ip : Nat) : Bool :=
  ip / 16777216 == 127

/-! ### `Network Map V2/network_map/report_data.py` -/

namespace ReportData

/-- One connection descriptor from a telemetry payload.  Missing dict keys are
modelled as `""` (the code reads each field with `c.get(key, "")` or treats a
missing value as falsy). -/
structure Conn where
  remoteip : String
  localip : String
  localport : String
  remoteport : String
deriving DecidableEq

/-- A parsed telemetry payload: the `incomingconnections` and
`outgoingconnections` lists, already normalized from dict-or-list shape to a
list (the code wraps a single dict into a one-element list). -/
structure ConnData where
  incoming : List Conn
  outgoing : List Conn
deriving DecidableEq

/-- The raw payload of one history entry: either a string that is not valid
JSON, or a well-formed connection record. -/
inductive Payload where
  | invalid : String → Payload
  | valid : ConnData → Payload
deriving DecidableEq

/-- `json.loads` at the ingestion boundary, modelled as a total parse into
`Option`: a malformed payload yields `none` (the code catches
`json.JSONDecodeError` and skips the entry). -/
def parsePayload : Payload → Option ConnData
  | .invalid _ => none
  | .valid d => some d

/-- One Zabbix history entry: `clock` timestamp and raw payload. -/
structure HistEntry where
  clock : Nat
  payload : Payload
deriving DecidableEq

/-- The aggregation key `(ctype, host, local_ip, remote_host, remote_ip, port)`
used as the dict key in `parse_history_connections`. -/
structure AggKey where
  ctype : String
  localHost : String
  localIp : String
  remoteHost : String
  remoteIp : String
  port : String
deriving DecidableEq

/-- The aggregation dict `agg`, modelled as an insertion-ordered association
list (Python dicts preserve insertion order); the value is
`(count, latest_ts)`. -/
abbrev Agg := List (AggKey × Nat × Nat)

/-- `ip_to_host.get(rip, rip)`. -/
def lookupGet (m : List (String × String)) (k : String) : String :=
  match m.find? (fun p => p.1 = k) with
  | some p => p.2
  | none => k

/-- The aggregation key built for one connection `c` of type `ctype` seen on
`host`: the port is the local port for incoming and the remote port for
outgoing connections. -/
def obsKey (ipToHost : List (String × String)) (host ctype : String) (c : Conn) : AggKey :=
  { ctype := ctype
    localHost := host
    localIp := c.localip
    remoteHost := lookupGet ipToHost c.remoteip
    remoteIp := c.remoteip
    port := if ctype = "incoming" then c.localport else c.remoteport }

/-- The dict update in `parse_history_connections`: a missing key is first
initialised to `count = 0, latest_ts = 0`, then `count += 1` and
`latest_ts := timestamp if timestamp > latest_ts`. -/
def aggUpdate : Agg → AggKey → Nat → Agg
  | [], k, ts => [(k, 1, ts)]
  | (k', c, t) :: rest, k, ts =>
    if k' = k then (k', c + 1, if ts > t then ts else t) :: rest
    else (k', c, t) :: aggUpdate rest k ts

/-- Processing of one connection descriptor. -/
def stepConn (ipToHost : List (String × String)) (host ctype : String) (ts : Nat)
    (agg : Agg) (c : Conn) : Agg :=
  aggUpdate agg (obsKey ipToHost host ctype c) ts

/-- Processing of one history entry: drop it when its timestamp is outside the
window, skip it when its payload does not parse, otherwise fold the incoming
then the outgoing connection lists into the aggregation. -/
def stepEntry (timeFrom timeTill : Nat) (ipToHost : List (String × String))
    (host : String) (agg : Agg) (e : HistEntry) : Agg :=
  if e.clock < timeFrom ∨ e.clock > timeTill then agg
  else
    match parsePayload e.payload with
    | none => agg
    | some d =>
      d.outgoing.foldl (stepConn ipToHost host "outgoing" e.clock)
        (d.incoming.foldl (stepConn ipToHost host "incoming" e.clock) agg)

/-- `parse_history_connections`: each item carries its host name and its
fetched history; the items are folded into one aggregation dict. -/
def parse_history_connections (timeFrom timeTill : Nat)
    (ipToHost : List (String × String))
    (items : List (String × List HistEntry)) : Agg :=
  items.foldl (fun agg itm => itm.2.foldl (stepEntry timeFrom timeTill ipToHost itm.1) agg) []

/-- One connection observation, as produced inside the entry loop of
`parse_history_connections`: the observing host, the connection type, the
connection descriptor, and the entry timestamp. -/
structure Obs where
  host : String
  ctype : String
  conn : Conn
  ts : Nat
deriving DecidableEq

/-- The aggregation key of an observation. -/
def keyOf (ipToHost : List (String × String)) (o : Obs) : AggKey :=
  obsKey ipToHost o.host o.ctype o.conn

/-- The aggregation core of `parse_history_connections`, applied to a stream
of connection observations in processing order. -/
def aggObs (ipToHost : List (String × String)) (l : List Obs) : Agg :=
  l.foldl (fun agg o => stepConn ipToHost o.host o.ctype o.ts agg o.conn) []

/-- One aggregated output row.  `timestamp` keeps the numeric `latest_ts`
(the ISO rendering via `datetime.utcfromtimestamp` is not modelled). -/
structure Row where
  type : String
  local_host : String
  local_ip : String
  remote_host : String
  remote_ip : String
  port : String
  count : Nat
  timestamp : Nat
deriving DecidableEq

/-- `filter_internal`: keep a row when both IPs parse and both lie in
`INTERNAL_NETWORKS`; a row whose IPs fail to parse is dropped (`continue`). -/
def filter_internal (rows : List Row) : List Row :=
  rows.filter fun r =>
    match parseIPv4 r.local_ip, parseIPv4 r.remote_ip with
    | some lip, some rip => inPrivateNetworks lip && inPrivateNetworks rip
    | _, _ => false

/-- `filter_public`: keep a row when both IPs parse, neither is loopback, and
the remote IP lies outside `INTERNAL_NETWORKS`; unparsable rows are dropped. -/
def filter_public (rows : List Row) : List Row :=
  rows.filter fun r =>
    match parseIPv4 r.local_ip, parseIPv4 r.remote_ip with
    | some lip, some rip =>
      !(isLoopback lip || isLoopback rip) && !(inPrivateNetworks rip)
    | _, _ => false

end ReportData

/-! ### `Network Map/network_map/helpers.py`, `zabbix_integration.py`, `state.py` -/

namespace LiveMap

/-- `helpers.is_public_ip`: parse the string; on `ValueError` return `False`,
otherwise `True` iff the address is in none of `PRIVATE_NETWORKS`. -/
def is_public_ip (s : String) : Bool :=
  match parseIPv4 s with
  | none => false
  | some ip => !(inPrivateNetworks ip)

/-- List-prefix test (helper for the substring test below). -/
def startsWith : List Char → List Char → Bool
  | [], _ => true
  | _ :: _, [] => false
  | a :: as, b :: bs => a == b && startsWith as bs

/-- Python `sub in s` substring containment over character lists. -/
def containsList (sub : List Char) : List Char → Bool
  | [] => startsWith sub []
  | c :: rest => startsWith sub (c :: rest) || containsList sub rest

/-- Python `sub in s` substring containment, for the keyword literals of
`classify_env`. -/
def containsSub (s sub : String) : Bool :=
  containsList sub.data s.data

/-- `str.lower()` (ASCII, which covers the keyword comparisons here). -/
def strLower (s : String) : String :=
  String.mk (s.data.map Char.toLower)

/-- `helpers.classify_env` on a single string: lowercase, then test keyword
groups in order (`prod`, `dev`, `test`, `qa`), first match wins. -/
def classifyStr (s : String) : String :=
  if s = "" then "unknown"
  else
    let val := strLower s
    if ["prod", "prd", "produktion", "production"].any (containsSub val) then "prod"
    else if ["dev", "developer"].any (containsSub val) then "dev"
    else if ["test", "tst"].any (containsSub val) then "test"
    else if ["qa", "quality", "pre-prod", "preproduction", "pre production"].any
        (containsSub val) then "qa"
    else "unknown"

/-- `helpers.classify_env` on a list of tag names: an empty list is falsy and
yields `"unknown"`; otherwise the first item classifying to something other
than `"unknown"` wins. -/
def classify_env (tags : List String) : String :=
  match (tags.map classifyStr).find? (fun e => e ≠ "unknown") with
  | some e => e
  | none => "unknown"

/-- One tag of a NetBox VM: either a dict with `name`/`slug` keys (a missing
key is `""`) or a plain string. -/
inductive Tag where
  | dict : String → String → Tag
  | str : String → Tag
deriving DecidableEq

/-- The tag-name extraction in `build_network_map`:
`t.get("name") or t.get("slug") or ""` for dicts, the string itself
otherwise, then empties removed. -/
def tagNames (tags : List Tag) : List String :=
  (tags.map fun t =>
    match t with
    | .dict n s => if n ≠ "" then n else if s ≠ "" then s else ""
    | .str s => s).filter (fun s => s ≠ "")

/-- `ENV_COLOR_MAP` from `config.py`. -/
def envColorMap : List (String × String) :=
  [("prod", "#007bff"), ("dev", "#28a745"), ("test", "#fd7e14"), ("qa", "#6f42c1"),
   ("unknown", "#6c757d"), ("external", "#ff3366"), ("internal-unknown", "#999999")]

/-- `ENV_COLOR_MAP[k]` as an optional lookup. -/
def envColor (k : String) : Option String :=
  (envColorMap.find? (fun p => p.1 = k)).map (fun p => p.2)

/-- `d.get(k, dflt)` on a string-keyed dict. -/
def dictGetD (m : List (String × String)) (k dflt : String) : String :=
  match m.find? (fun p => p.1 = k) with
  | some p => p.2
  | none => dflt

/-- One connection descriptor in the live builder; missing keys are `""`. -/
structure LiveConn where
  localip : String
  remoteip : String
  localport : String
  remoteport : String
deriving DecidableEq

/-- A parsed live payload: the incoming and outgoing connection lists, already
normalized to list shape. -/
structure LiveData where
  incoming : List LiveConn
  outgoing : List LiveConn
deriving DecidableEq

/-- One history entry of the live builder: the result of `json.loads` on its
`value`; `none` models a payload that fails to parse or is not a dict. -/
abbrev LiveEntry := Option LiveData

/-- A Cytoscape node record (the fields of the `data` dict). -/
structure NodeData where
  id : String
  label : String
  degree : Nat
  ip : String
  color : String
deriving DecidableEq

/-- A Cytoscape edge record (the fields of the `data` dict). -/
structure EdgeData where
  source : String
  target : String
  label : String
  isPublic : Bool
  srcIp : String
  dstIp : String
deriving DecidableEq

/-- The result of `build_network_map`. -/
structure Graph where
  nodes : List NodeData
  edges : List EdgeData
deriving DecidableEq

/-- Python `set.add`, modelled as append-if-absent on a duplicate-free list
(iteration order of a Python set is unspecified; statements below only use
membership). -/
def insertSet {α : Type} [DecidableEq α] (l : List α) (a : α) : List α :=
  if a ∈ l then l else l ++ [a]

/-- The port picked by the live builder:
`c.get("localport") or c.get("remoteport") or ""` — the local port whenever it
is non-empty, else the remote port, regardless of direction. -/
def livePort (c : LiveConn) : String :=
  if c.localport ≠ "" then c.localport
  else if c.remoteport ≠ "" then c.remoteport
  else ""

/-- Accumulated state of the entry loop: the node name set and the edge tuple
set `(src, dst, port, is_public)`. -/
abbrev LiveState := List String × List (String × String × String × Bool)

/-- Processing of one connection descriptor of direction `"in"`
(`dirIsIn = true`) or `"out"`. -/
def liveStepConn (ip2host : List (String × String)) (dirIsIn : Bool)
    (st : LiveState) (c : LiveConn) : LiveState :=
  if c.localip = "" ∨ c.remoteip = "" then st
  else
    let src := if dirIsIn then ReportData.lookupGet ip2host c.remoteip
               else ReportData.lookupGet ip2host c.localip
    let dst := if dirIsIn then ReportData.lookupGet ip2host c.localip
               else ReportData.lookupGet ip2host c.remoteip
    let nodes := insertSet (insertSet st.1 src) dst
    let edges := insertSet st.2 (src, dst, livePort c, is_public_ip c.remoteip)
    (nodes, edges)

/-- Processing of one history entry: a payload that fails to parse is skipped
(`except: continue`); otherwise the incoming then the outgoing lists are
folded. -/
def liveStepEntry (ip2host : List (String × String)) (st : LiveState)
    (e : LiveEntry) : LiveState :=
  match e with
  | none => st
  | some d =>
    d.outgoing.foldl (liveStepConn ip2host false)
      (d.incoming.foldl (liveStepConn ip2host true) st)

/-- The degree computed in `build_network_map`: one per occurrence of the node
as a source plus one per occurrence as a target. -/
def degreeOf (edges : List (String × String × String × Bool)) (n : String) : Nat :=
  (edges.filter (fun e => e.1 = n)).length + (edges.filter (fun e => e.2.1 = n)).length

/-- The tag list of the NetBox VM record for node `n`
(`vm = name_to_vm.get(n) or {}; tags = vm.get("tags") or []`). -/
def vmTags (nameToVm : List (String × List Tag)) (n : String) : List Tag :=
  match nameToVm.find? (fun p => p.1 = n) with
  | some p => p.2
  | none => []

/-- The color assigned to node `n`: the external color when `is_public_ip` of
the node's inventory IP `host2ip.get(n, "")` holds, else the color of the
environment classified from the NetBox tags, defaulting to the
internal-unknown color. -/
def nodeColor (host2ip : List (String × String))
    (nameToVm : List (String × List Tag)) (n : String) : String :=
  if is_public_ip (dictGetD host2ip n "") then "#ff3366"
  else match envColor (classify_env (tagNames (vmTags nameToVm n))) with
    | some col => col
    | none => "#999999"

/-- The node record built for node `n`. -/
def nodeDataFor (host2ip : List (String × String))
    (nameToVm : List (String × List Tag)) (edges : List (String × String × String × Bool))
    (n : String) : NodeData :=
  let ip := dictGetD host2ip n ""
  { id := n
    label := if ip ≠ "" then n ++ " (" ++ ip ++ ")" else n
    degree := degreeOf edges n
    ip := ip
    color := nodeColor host2ip nameToVm n }

/-- The edge record built for one edge tuple. -/
def edgeDataFor (host2ip : List (String × String))
    (e : String × String × String × Bool) : EdgeData :=
  { source := e.1
    target := e.2.1
    label := if e.2.2.1 ≠ "" then "port " ++ e.2.2.1 else ""
    isPublic := e.2.2.2
    srcIp := dictGetD host2ip e.1 ""
    dstIp := dictGetD host2ip e.2.1 "" }

/-- `build_network_map`, with the fetched inventory maps and the flattened
history entry list of all items as inputs (the HTTP fetches are external
collaborators). -/
def build_network_map (ip2host host2ip : List (String × String))
    (nameToVm : List (String × List Tag)) (entries : List LiveEntry) : Graph :=
  let st := entries.foldl (liveStepEntry ip2host) ([], [])
  { nodes := st.1.map (nodeDataFor host2ip nameToVm st.2)
    edges := st.2.map (edgeDataFor host2ip) }

/-! #### `state.py`: the topology cache -/

/-- The empty graph `{"nodes": [], "edges": []}`. -/
def emptyGraph : Graph := { nodes := [], edges := [] }

/-- The module-level cache state: `_cached_map` and `_last_updated`. -/
structure CacheState where
  cachedMap : Graph
  lastUpdated : Nat
deriving DecidableEq

/-- The initial module state: `_cached_map = {"nodes": [], "edges": []}`,
`_last_updated = 0`. -/
def initialState : CacheState := { cachedMap := emptyGraph, lastUpdated := 0 }

/-- `set_cached_map(new_map)` at wall-clock time `now`. -/
def set_cached_map (s : CacheState) (m : Graph) (now : Nat) : CacheState :=
  let _ := s
  { cachedMap := m, lastUpdated := now }

/-- `get_cached_map()`. -/
def get_cached_map (s : CacheState) : Graph := s.cachedMap

/-- `get_last_updated()`. -/
def get_last_updated (s : CacheState) : Nat := s.lastUpdated

/-- One refresh attempt of `zabbix_worker`:
`set_cached_map(build_network_map())` inside `try/except`.  The build runs
before the cache is touched, so a raising build (`Except.error`) leaves the
state untouched. -/
def refreshAttempt (s : CacheState) (now : Nat) (build : Except String Graph) : CacheState :=
  match build with
  | .ok g => set_cached_map s g now
  | .error _ => s

end LiveMap

/-! ### `Docker Network Map/Windows/network_map/report_builders.py` -/

namespace Drawio

/-- A node's axis-aligned bounding box `[x, x + w, y, y + h]` as built in
`separate_overlaps`. -/
structure Box where
  x1 : ℚ
  x2 : ℚ
  y1 : ℚ
  y2 : ℚ

/-- The `overlap` test of `separate_overlaps`:
`not (a[1] < b[0] or a[0] > b[1] or a[3] < b[2] or a[2] > b[3])`
(touching boxes count as overlapping). -/
def overlapB (a b : Box) : Bool :=
  !(decide (a.x2 < b.x1) || decide (a.x1 > b.x2) || decide (a.y2 < b.y1) || decide (a.y1 > b.y2))

/-- The box of the node at position `p` for footprint `w × h`. -/
def mkBox (w h : ℚ) (p : ℚ × ℚ) : Box :=
  { x1 := p.1, x2 := p.1 + w, y1 := p.2, y2 := p.2 + h }

/-- Node positions in insertion order of the `node_positions` dict (the dict
keys never change during the run, only the values). -/
abbrev PosList := List (ℚ × ℚ)

/-- The body of the inner pair loop: read both positions, and when the two
boxes overlap push the nodes apart by the half-overlap along each axis
(`n1` by `(-px, -py)`, `n2` by `(+px, +py)`); coincident centers get the
default direction `dx = 1`.  Returns the updated positions and whether this
pair moved. -/
def pairUpdate (w h pad : ℚ) (pos : PosList) (ij : Nat × Nat) : PosList × Bool :=
  let p1 := pos.getD ij.1 (0, 0)
  let p2 := pos.getD ij.2 (0, 0)
  if overlapB (mkBox w h p1) (mkBox w h p2) then
    let dx0 := p2.1 - p1.1
    let dy := p2.2 - p1.2
    let dx := if dx0 = 0 ∧ dy = 0 then 1 else dx0
    let ox := (w + pad) - |dx|
    let oy := (h + pad) - |dy|
    let px := if |dx| < w + pad then ox / 2 * (if dx > 0 then 1 else -1) else 0
    let py := if |dy| < h + pad then oy / 2 * (if dy > 0 then 1 else -1) else 0
    ((pos.set ij.1 (p1.1 - px, p1.2 - py)).set ij.2 (p2.1 + px, p2.2 + py), true)
  else (pos, false)

/-- The index pairs visited by
`for i in range(n): for j in range(i+1, n)`. -/
def pairList (n : Nat) : List (Nat × Nat) :=
  (List.range n).flatMap fun i => (List.range' (i + 1) (n - (i + 1))).map fun j => (i, j)

/-- One full pass of the nested pair loop, threading the positions and the
`moved` flag. -/
def sweep (w h pad : ℚ) (pos : PosList) : PosList × Bool :=
  (pairList pos.length).foldl
    (fun acc ij =>
      let r := pairUpdate w h pad acc.1 ij
      (r.1, acc.2 || r.2))
    (pos, false)

/-- The outer `for _ in range(max_iterations)` loop with its
`if not moved: break`. -/
def relax (w h pad : ℚ) : Nat → PosList → PosList
  | 0, pos => pos
  | fuel + 1, pos =>
    if (sweep w h pad pos).2 then relax w h pad fuel (sweep w h pad pos).1
    else (sweep w h pad pos).1

/-- `separate_overlaps` with the default footprint
`node_width = 160, node_height = 80, padding = 40, max_iterations = 800`. -/
def separate_overlaps (pos : PosList) : PosList :=
  relax 160 80 40 800 pos

/-! #### `build_drawio_per_host` document structure -/

/-- The `networkx.DiGraph` as used here: insertion-ordered duplicate-free node
list, and edges keyed by `(src, dst)` (re-adding an existing edge overwrites
its label). -/
structure DiGraph where
  nodes : List String
  edges : List (String × String × String)
deriving DecidableEq

/-- `G.add_node`. -/
def addNode (g : DiGraph) (n : String) : DiGraph :=
  if n ∈ g.nodes then g else { g with nodes := g.nodes ++ [n] }

/-- `G.add_edge(src, dst, label=lbl)`: ensures both endpoints are nodes, then
inserts the edge or overwrites the label of the existing `(src, dst)` edge. -/
def addEdge (g : DiGraph) (s d lbl : String) : DiGraph :=
  let g' := addNode (addNode g s) d
  if g'.edges.any (fun e => e.1 = s ∧ e.2.1 = d) then
    { g' with edges := g'.edges.map (fun e => if e.1 = s ∧ e.2.1 = d then (s, d, lbl) else e) }
  else { g' with edges := g'.edges ++ [(s, d, lbl)] }

/-- The per-host subgraph: rows whose remote host is excluded are dropped;
an outgoing row orients local → remote, an incoming row remote → local; the
edge label is the connection type plus the port when one is known. -/
def hostGraph (excluded : List String) (recs : List ReportData.Row) : DiGraph :=
  recs.foldl
    (fun g r =>
      if r.remote_host ∈ excluded then g
      else
        let src := if r.type = "outgoing" then r.local_host else r.remote_host
        let dst := if r.type = "outgoing" then r.remote_host else r.local_host
        let lbl := if r.port ≠ "" then r.type ++ " (port=" ++ r.port ++ ")" else r.type
        addEdge (addNode (addNode g src) dst) src dst lbl)
    { nodes := [], edges := [] }

/-- First-occurrence-order key list of the `defaultdict(list)` grouping
`per_rows` (Python dicts preserve insertion order). -/
def firstDedup (l : List String) : List String :=
  l.foldl (fun acc a => if a ∈ acc then acc else acc ++ [a]) []

/-- Position of the first occurrence of `n`. -/
def idxOf : List String → String → Nat
  | [], _ => 0
  | a :: l, n => if a = n then 0 else idxOf l n + 1

/-- The `mxCell` id assigned to graph node `n` by the enumeration
`id_map[n] = f"node..."` (ids are `node1`, `node2`, … in node order). -/
def cellId (g : DiGraph) (n : String) : String :=
  "node" ++ toString (idxOf g.nodes n + 1)

/-- One `diagram` page of the draw.io document: the page name (`host[:31]`),
the ids of its node cells, and its edge cells as
`(source id, target id, label)`.  Cell geometry and the node labels are
rendering details that do not bear on the document structure. -/
structure Page where
  host : String
  name : String
  nodeIds : List String
  edgeCells : List (String × String × String)
deriving DecidableEq

/-- The page built for one host's subgraph. -/
def buildPage (host : String) (g : DiGraph) : Page :=
  { host := host
    name := host.take 31
    nodeIds := (List.range g.nodes.length).map (fun k => "node" ++ toString (k + 1))
    edgeCells := g.edges.map (fun e => (cellId g e.1, cellId g e.2.1, e.2.2)) }

/-- The page list of `build_drawio_per_host`: group rows by local host in
first-occurrence order, skip excluded hosts, build each host's subgraph, skip
hosts whose subgraph has no nodes, and emit one page for each remaining
host. -/
def build_drawio_per_host (excluded : List String) (rows : List ReportData.Row) : List Page :=
  (firstDedup (rows.map (fun r => r.local_host))).filterMap fun h =>
    if h ∈ excluded then none
    else if (hostGraph excluded (rows.filter (fun r => r.local_host = h))).nodes.isEmpty then none
    else some (buildPage h (hostGraph excluded (rows.filter (fun r => r.local_host = h))))

end Drawio

/-! ## Theorems -/

/-- C4: for every input list of aggregated rows, the outputs of
`filter_internal` and `filter_public` are disjoint, every row in either output
comes from the input list, and a row whose local or remote IP fails to parse
appears in neither output. -/
theorem filter_partition_C4 (rows : List ReportData.Row) (r : ReportData.Row) :
    (r ∈ ReportData.filter_internal rows → r ∉ ReportData.filter_public rows) ∧
    ((r ∈ ReportData.filter_internal rows ∨ r ∈ ReportData.filter_public rows) → r ∈ rows) ∧
    ((parseIPv4 r.local_ip = none ∨ parseIPv4 r.remote_ip = none) →
      r ∉ ReportData.filter_internal rows ∧ r ∉ ReportData.filter_public rows) := by
  refine ⟨?_, ?_, ?_⟩
  · intro hi hp
    rw [ReportData.filter_internal, List.mem_filter] at hi
    rw [ReportData.filter_public, List.mem_filter] at hp
    rcases hi with ⟨-, hi⟩
    rcases hp with ⟨-, hp⟩
    cases hl : parseIPv4 r.local_ip <;> cases hr : parseIPv4 r.remote_ip <;>
      simp only [hl, hr] at hi hp <;> simp_all
  · rintro (h | h)
    · exact (List.mem_filter.mp h).1
    · exact (List.mem_filter.mp h).1
  · intro h
    constructor <;> intro hm
    · rw [ReportData.filter_internal, List.mem_filter] at hm
      rcases hm with ⟨-, hb⟩
      rcases h with h | h <;> cases hl : parseIPv4 r.local_ip <;>
        cases hr : parseIPv4 r.remote_ip <;> simp_all
    · rw [ReportData.filter_public, List.mem_filter] at hm
      rcases hm with ⟨-, hb⟩
      rcases h with h | h <;> cases hl : parseIPv4 r.local_ip <;>
        cases hr : parseIPv4 r.remote_ip <;> simp_all

/-- Witness for C4 at a concrete input: an internal row
(`10.0.0.1 → 10.0.0.2`) is excluded from the public output and present in the
input, and a row with unparsable local IP `nope` is excluded from the internal
output. -/
theorem filter_partition_C4_witness :
    ((⟨"incoming", "h1", "10.0.0.1", "rh", "10.0.0.2", "80", 1, 5⟩ : ReportData.Row) ∉
      ReportData.filter_public
        [⟨"incoming", "h1", "10.0.0.1", "rh", "10.0.0.2", "80", 1, 5⟩,
         ⟨"incoming", "h1", "nope", "rh", "10.0.0.2", "80", 1, 5⟩]) ∧
    ((⟨"incoming", "h1", "10.0.0.1", "rh", "10.0.0.2", "80", 1, 5⟩ : ReportData.Row) ∈
      [⟨"incoming", "h1", "10.0.0.1", "rh", "10.0.0.2", "80", 1, 5⟩,
       ⟨"incoming", "h1", "nope", "rh", "10.0.0.2", "80", 1, 5⟩]) ∧
    ((⟨"incoming", "h1", "nope", "rh", "10.0.0.2", "80", 1, 5⟩ : ReportData.Row) ∉
      ReportData.filter_internal
        [⟨"incoming", "h1", "10.0.0.1", "rh", "10.0.0.2", "80", 1, 5⟩,
         ⟨"incoming", "h1", "nope", "rh", "10.0.0.2", "80", 1, 5⟩]) :=
  ⟨(filter_partition_C4 _ _).1 (by decide),
   (filter_partition_C4 _ _).2.1 (Or.inl (by decide)),
   ((filter_partition_C4
      [⟨"incoming", "h1", "10.0.0.1", "rh", "10.0.0.2", "80", 1, 5⟩,
       ⟨"incoming", "h1", "nope", "rh", "10.0.0.2", "80", 1, 5⟩]
      ⟨"incoming", "h1", "nope", "rh", "10.0.0.2", "80", 1, 5⟩).2.2 (Or.inl (by decide))).1⟩

/-- Helper: the last element of `a :: l` with default `d` is the last element
of `l` with default `a`. -/
theorem getLast?_getD_cons {α : Type} (l : List α) (a d : α) :
    ((a :: l).getLast?).getD d = (l.getLast?).getD a := by
  induction l generalizing a d with
  | nil => rfl
  | cons b t ih =>
    rw [List.getLast?_cons_cons]
    rw [ih b d, ih b a]

/-- C7: a refresh attempt whose build raises leaves the cache state — graph
and last-updated timestamp — exactly as it was, and after any sequence of
refresh attempts a read returns the graph of the last successful build (or the
state's previous graph when none succeeded); reads never surface an error. -/
theorem cache_refresh_atomic_C7 :
    (∀ (s : LiveMap.CacheState) (now : Nat) (e : String),
      LiveMap.refreshAttempt s now (Except.error e) = s) ∧
    (∀ (s0 : LiveMap.CacheState) (attempts : List (Nat × Except String LiveMap.Graph)),
      LiveMap.get_cached_map
          (attempts.foldl (fun s a => LiveMap.refreshAttempt s a.1 a.2) s0) =
        ((attempts.filterMap (fun a => a.2.toOption)).getLast?).getD
          (LiveMap.get_cached_map s0)) := by
  constructor
  · intro s now e
    rfl
  · intro s0 attempts
    induction attempts generalizing s0 with
    | nil => rfl
    | cons a rest ih =>
      rcases a with ⟨now, b⟩
      cases b with
      | ok g =>
        rw [List.foldl_cons, List.filterMap_cons]
        simp only [Except.toOption]
        rw [getLast?_getD_cons]
        exact ih _
      | error e =>
        rw [List.foldl_cons, List.filterMap_cons]
        simp only [Except.toOption]
        exact ih s0

/-- C10: before the first `set_cached_map` the cache reads as the empty graph
with last-updated `0`, and after any sequence of `set_cached_map` calls
`get_cached_map` returns exactly the most recent graph passed in. -/
theorem cache_initial_snapshot_C10 :
    LiveMap.get_cached_map LiveMap.initialState = LiveMap.emptyGraph ∧
    LiveMap.get_last_updated LiveMap.initialState = 0 ∧
    ∀ (sets : List (LiveMap.Graph × Nat)),
      LiveMap.get_cached_map
          (sets.foldl (fun s p => LiveMap.set_cached_map s p.1 p.2) LiveMap.initialState) =
        ((sets.map Prod.fst).getLast?).getD LiveMap.emptyGraph := by
  refine ⟨rfl, rfl, ?_⟩
  have key : ∀ (sets : List (LiveMap.Graph × Nat)) (s : LiveMap.CacheState),
      LiveMap.get_cached_map (sets.foldl (fun s p => LiveMap.set_cached_map s p.1 p.2) s) =
        ((sets.map Prod.fst).getLast?).getD (LiveMap.get_cached_map s) := by
    intro sets
    induction sets with
    | nil => intro s; rfl
    | cons p t ih =>
      intro s
      rw [List.foldl_cons, List.map_cons, getLast?_getD_cons, ih]
      rfl
  intro sets
  exact key sets LiveMap.initialState

/-- Helper: an entry whose payload is not valid JSON is a no-op for the V2
aggregation. -/
theorem stepEntry_invalid (timeFrom timeTill : Nat) (ipToHost : List (String × String))
    (host : String) (agg : ReportData.Agg) (clock : Nat) (s : String) :
    ReportData.stepEntry timeFrom timeTill ipToHost host agg ⟨clock, .invalid s⟩ = agg := by
  rw [ReportData.stepEntry]
  split
  · rfl
  · rfl

/-- Helper: a fold over a list with a no-op element inserted equals the fold
over the list without it. -/
theorem foldl_middle_noop {α β : Type} (f : β → α → β) (m : α)
    (hm : ∀ b, f b m = b) (pre post : List α) (a : β) :
    (pre ++ m :: post).foldl f a = (pre ++ post).foldl f a := by
  rw [List.foldl_append, List.foldl_append, List.foldl_cons, hm]

/-- C6: inserting a history entry whose payload is not valid JSON anywhere in
an item's entry list leaves the aggregation output of
`parse_history_connections` unchanged, and likewise inserting an unparsable
entry into the live builder's history leaves `build_network_map` unchanged:
the malformed entry is skipped and ingestion continues (both ingestion
functions are total, so no failure escapes). -/
theorem parse_failure_skipped_C6 (timeFrom timeTill : Nat)
    (ipToHost : List (String × String))
    (itemsPre itemsPost : List (String × List ReportData.HistEntry))
    (host : String) (pre post : List ReportData.HistEntry) (clock : Nat) (s : String)
    (ip2host host2ip : List (String × String)) (nameToVm : List (String × List LiveMap.Tag))
    (lpre lpost : List LiveMap.LiveEntry) :
    ReportData.parse_history_connections timeFrom timeTill ipToHost
        (itemsPre ++ (host, pre ++ ⟨clock, .invalid s⟩ :: post) :: itemsPost) =
      ReportData.parse_history_connections timeFrom timeTill ipToHost
        (itemsPre ++ (host, pre ++ post) :: itemsPost) ∧
    LiveMap.build_network_map ip2host host2ip nameToVm (lpre ++ none :: lpost) =
      LiveMap.build_network_map ip2host host2ip nameToVm (lpre ++ lpost) := by
  constructor
  · rw [ReportData.parse_history_connections, ReportData.parse_history_connections]
    rw [List.foldl_append, List.foldl_append, List.foldl_cons, List.foldl_cons]
    have : ∀ agg : ReportData.Agg,
        (pre ++ (⟨clock, .invalid s⟩ : ReportData.HistEntry) :: post).foldl
            (ReportData.stepEntry timeFrom timeTill ipToHost host) agg =
          (pre ++ post).foldl (ReportData.stepEntry timeFrom timeTill ipToHost host) agg := by
      intro agg
      exact foldl_middle_noop _ _ (fun b => stepEntry_invalid _ _ _ _ b clock s) pre post agg
    rw [this]
  · rw [LiveMap.build_network_map, LiveMap.build_network_map]
    rw [foldl_middle_noop (LiveMap.liveStepEntry ip2host) none (fun b => rfl) lpre lpost]

/-- Helper: the merge step `latest_ts := timestamp if timestamp > latest_ts`
is the maximum. -/
theorem ifGt_eq_max (t ts : Nat) : (if ts > t then ts else t) = max t ts := by
  rw [Nat.max_def]
  split <;> split <;> omega

/-- Helper: folding a stream of observations that all share key `k` into a
singleton aggregation map counts them and maxes their timestamps. -/
theorem aggObs_singleKey (ipToHost : List (String × String)) (k : ReportData.AggKey) :
    ∀ (l : List ReportData.Obs) (c t : Nat),
      (∀ o ∈ l, ReportData.keyOf ipToHost o = k) →
      l.foldl (fun agg o => ReportData.stepConn ipToHost o.host o.ctype o.ts agg o.conn)
          [(k, c, t)] =
        [(k, c + l.length, (l.map (fun o => o.ts)).foldl max t)] := by
  intro l
  induction l with
  | nil => intro c t _; simp
  | cons o rest ih =>
    intro c t hk
    have hko : ReportData.keyOf ipToHost o = k := hk o (List.mem_cons_self o rest)
    rw [List.foldl_cons]
    have hstep : ReportData.stepConn ipToHost o.host o.ctype o.ts [(k, c, t)] o.conn =
        [(k, c + 1, max t o.ts)] := by
      rw [ReportData.stepConn, ← ReportData.keyOf, hko, ReportData.aggUpdate]
      rw [if_pos rfl, ifGt_eq_max]
    rw [hstep, ih (c + 1) (max t o.ts) (fun o ho => hk o (List.mem_cons_of_mem _ ho))]
    simp only [List.length_cons, List.map_cons, List.foldl_cons]
    have harith : c + 1 + rest.length = c + (rest.length + 1) := by omega
    rw [harith]

/-- Helper: a fold of `max` over a list of naturals is invariant under
permutation of the list. -/
theorem foldl_max_perm : ∀ {l₁ l₂ : List Nat}, l₁.Perm l₂ →
    ∀ a : Nat, l₁.foldl max a = l₂.foldl max a := by
  intro l₁ l₂ h
  induction h with
  | nil => intro a; rfl
  | cons x _ ih => intro a; rw [List.foldl_cons, List.foldl_cons, ih]
  | swap x y l => intro a; rw [List.foldl_cons, List.foldl_cons, List.foldl_cons,
      List.foldl_cons, sup_right_comm]
  | trans _ _ ih₁ ih₂ => intro a; rw [ih₁, ih₂]

/-- C1: for a non-empty set of connection observations all sharing aggregation
key `k`, the aggregation core of `parse_history_connections` produces, for any
permutation of the processing order, the same aggregation map, namely the
single row for `k` whose count is the number of observations and whose
`latest_ts` is the maximum of their timestamps (`foldl max 0` over a non-empty
`Nat` list is its maximum). -/
theorem merge_order_independence_C1 (ipToHost : List (String × String))
    (k : ReportData.AggKey) (l l' : List ReportData.Obs)
    (hk : ∀ o ∈ l, ReportData.keyOf ipToHost o = k)
    (hp : l.Perm l') (hne : l ≠ []) :
    ReportData.aggObs ipToHost l' = ReportData.aggObs ipToHost l ∧
    ReportData.aggObs ipToHost l =
      [(k, l.length, (l.map (fun o => o.ts)).foldl max 0)] := by
  have canon : ∀ (m : List ReportData.Obs), (∀ o ∈ m, ReportData.keyOf ipToHost o = k) →
      m ≠ [] →
      ReportData.aggObs ipToHost m =
        [(k, m.length, (m.map (fun o => o.ts)).foldl max 0)] := by
    intro m hm hmne
    match m with
    | o :: rest =>
      rw [ReportData.aggObs, List.foldl_cons]
      have hko : ReportData.keyOf ipToHost o = k := hm o (List.mem_cons_self o rest)
      have hstep : ReportData.stepConn ipToHost o.host o.ctype o.ts [] o.conn =
          [(k, 1, o.ts)] := by
        rw [ReportData.stepConn, ← ReportData.keyOf, hko, ReportData.aggUpdate]
      rw [hstep, aggObs_singleKey ipToHost k rest 1 o.ts
        (fun o ho => hm o (List.mem_cons_of_mem _ ho))]
      simp only [List.length_cons, List.map_cons, List.foldl_cons, Nat.zero_max]
      have harith : 1 + rest.length = rest.length + 1 := by omega
      rw [harith]
  have hl := canon l hk hne
  have hk' : ∀ o ∈ l', ReportData.keyOf ipToHost o = k := by
    intro o ho
    exact hk o (hp.mem_iff.mpr ho)
  have hne' : l' ≠ [] := by
    intro h
    apply hne
    have := hp.length_eq
    rw [h] at this
    exact List.length_eq_zero.mp this
  have hl' := canon l' hk' hne'
  refine ⟨?_, hl⟩
  rw [hl, hl', hp.length_eq, foldl_max_perm (hp.map (fun o => o.ts)) 0]

/-- Witness for C1: two outgoing observations of the same connection seen at
timestamps 100 and 50, processed in both orders. -/
theorem merge_order_independence_C1_witness :
    ReportData.aggObs []
        [⟨"web1", "outgoing", ⟨"10.0.0.5", "10.0.0.9", "50505", "443"⟩, 50⟩,
         ⟨"web1", "outgoing", ⟨"10.0.0.5", "10.0.0.9", "50505", "443"⟩, 100⟩] =
      ReportData.aggObs []
        [⟨"web1", "outgoing", ⟨"10.0.0.5", "10.0.0.9", "50505", "443"⟩, 100⟩,
         ⟨"web1", "outgoing", ⟨"10.0.0.5", "10.0.0.9", "50505", "443"⟩, 50⟩] ∧
    ReportData.aggObs []
        [⟨"web1", "outgoing", ⟨"10.0.0.5", "10.0.0.9", "50505", "443"⟩, 100⟩,
         ⟨"web1", "outgoing", ⟨"10.0.0.5", "10.0.0.9", "50505", "443"⟩, 50⟩] =
      [(⟨"outgoing", "web1", "10.0.0.9", "10.0.0.5", "10.0.0.5", "443"⟩, 2,
        ([(⟨"web1", "outgoing", ⟨"10.0.0.5", "10.0.0.9", "50505", "443"⟩, 100⟩ :
            ReportData.Obs),
          ⟨"web1", "outgoing", ⟨"10.0.0.5", "10.0.0.9", "50505", "443"⟩, 50⟩].map
            (fun o => o.ts)).foldl max 0)] :=
  merge_order_independence_C1 [] ⟨"outgoing", "web1", "10.0.0.9", "10.0.0.5", "10.0.0.5", "443"⟩
    [⟨"web1", "outgoing", ⟨"10.0.0.5", "10.0.0.9", "50505", "443"⟩, 100⟩,
     ⟨"web1", "outgoing", ⟨"10.0.0.5", "10.0.0.9", "50505", "443"⟩, 50⟩]
    [⟨"web1", "outgoing", ⟨"10.0.0.5", "10.0.0.9", "50505", "443"⟩, 50⟩,
     ⟨"web1", "outgoing", ⟨"10.0.0.5", "10.0.0.9", "50505", "443"⟩, 100⟩]
    (by decide) (by decide) (by decide)

set_option maxRecDepth 200000 in
/-- C2 counterexample: one incoming connection from remote IP `8.8.8.8` with
no identity mapping anywhere (all inventory maps empty); `8.8.8.8` is outside
every private range, a node with id `8.8.8.8` is produced — but its color is
`#6c757d` (the `unknown` classification), not the external classification
color `#ff3366`, because the builder evaluates `is_public_ip` on
`host2ip.get(n, "")`, which is empty for an unmapped remote. -/
theorem external_classification_C2_counterexample :
    LiveMap.is_public_ip "8.8.8.8" = true ∧
    LiveMap.envColor "external" = some "#ff3366" ∧
    (∃ nd ∈ (LiveMap.build_network_map [] [] []
        [some ⟨[⟨"192.168.1.10", "8.8.8.8", "443", "55555"⟩], []⟩]).nodes,
      nd.id = "8.8.8.8") ∧
    (∀ nd ∈ (LiveMap.build_network_map [] [] []
        [some ⟨[⟨"192.168.1.10", "8.8.8.8", "443", "55555"⟩], []⟩]).nodes,
      nd.id = "8.8.8.8" → nd.color = "#6c757d" ∧ nd.color ≠ "#ff3366") := by
  exact ⟨by decide, by decide, by decide, by decide⟩

/-- Helper: an element stays in a set after `insertSet`. -/
theorem mem_insertSet_of_mem {α : Type} [DecidableEq α] {l : List α} {x : α} (a : α)
    (h : x ∈ l) : x ∈ LiveMap.insertSet l a := by
  rw [LiveMap.insertSet]
  split
  · exact h
  · exact List.mem_append_left _ h

/-- Helper: `insertSet` contains the inserted element. -/
theorem mem_insertSet_self {α : Type} [DecidableEq α] (l : List α) (a : α) :
    a ∈ LiveMap.insertSet l a := by
  rw [LiveMap.insertSet]
  split
  · assumption
  · exact List.mem_append_right _ (List.mem_singleton.mpr rfl)

/-- C2 amended: with no identity mapping for `8.8.8.8` in any inventory map
and a single incoming connection from it, the builder produces a node with id
`8.8.8.8`, but its color is `#6c757d` — the `unknown` classification — rather
than the external color: the color check runs `is_public_ip` on the node's
inventory IP `host2ip.get(n, "")`, which is empty (hence "not public") for an
unmapped remote address. -/
theorem external_classification_C2_amended
    (ip2host host2ip : List (String × String)) (nameToVm : List (String × List LiveMap.Tag))
    (lip lp rp : String)
    (hip2 : ip2host.find? (fun p => p.1 = "8.8.8.8") = none)
    (hh2 : host2ip.find? (fun p => p.1 = "8.8.8.8") = none)
    (hvm : nameToVm.find? (fun p => p.1 = "8.8.8.8") = none)
    (hlip : lip ≠ "") :
    ∃ nd ∈ (LiveMap.build_network_map ip2host host2ip nameToVm
        [some ⟨[⟨lip, "8.8.8.8", lp, rp⟩], []⟩]).nodes,
      nd.id = "8.8.8.8" ∧ nd.color = "#6c757d" ∧ nd.color ≠ LiveMap.nodeColor [("8.8.8.8", "8.8.8.8")] [] "8.8.8.8" := by
  have hcond : ¬(lip = "" ∨ ("8.8.8.8" : String) = "") := by
    rintro (h | h)
    · exact hlip h
    · exact absurd h (by decide)
  have hsrc : ReportData.lookupGet ip2host "8.8.8.8" = "8.8.8.8" := by
    rw [ReportData.lookupGet, hip2]
  have hst : (([some ⟨[⟨lip, "8.8.8.8", lp, rp⟩], []⟩] : List LiveMap.LiveEntry).foldl
      (LiveMap.liveStepEntry ip2host) ([], [])).1 =
      LiveMap.insertSet (LiveMap.insertSet [] (ReportData.lookupGet ip2host "8.8.8.8"))
        (ReportData.lookupGet ip2host lip) := by
    show (LiveMap.liveStepConn ip2host true ([], []) ⟨lip, "8.8.8.8", lp, rp⟩).1 = _
    unfold LiveMap.liveStepConn
    rw [if_neg hcond]
    rfl
  have h88 : "8.8.8.8" ∈ (([some ⟨[⟨lip, "8.8.8.8", lp, rp⟩], []⟩] : List LiveMap.LiveEntry).foldl
      (LiveMap.liveStepEntry ip2host) ([], [])).1 := by
    rw [hst, hsrc]
    exact mem_insertSet_of_mem _ (mem_insertSet_self [] "8.8.8.8")
  have hcol : LiveMap.nodeColor host2ip nameToVm "8.8.8.8" = "#6c757d" := by
    have hip : LiveMap.dictGetD host2ip "8.8.8.8" "" = "" := by
      rw [LiveMap.dictGetD, hh2]
    have htags : LiveMap.vmTags nameToVm "8.8.8.8" = [] := by
      rw [LiveMap.vmTags, hvm]
    rw [LiveMap.nodeColor, hip, htags]
    decide
  refine ⟨LiveMap.nodeDataFor host2ip nameToVm
      (([some ⟨[⟨lip, "8.8.8.8", lp, rp⟩], []⟩] : List LiveMap.LiveEntry).foldl
        (LiveMap.liveStepEntry ip2host) ([], [])).2 "8.8.8.8",
    List.mem_map_of_mem _ h88, rfl, hcol, ?_⟩
  show LiveMap.nodeColor host2ip nameToVm "8.8.8.8" ≠ _
  rw [hcol]
  decide

/-- Witness for C2 amended, at fully concrete empty inventory maps and local
IP `192.168.1.10`. -/
theorem external_classification_C2_amended_witness :
    ∃ nd ∈ (LiveMap.build_network_map [] [] []
        [some ⟨[⟨"192.168.1.10", "8.8.8.8", "443", "55555"⟩], []⟩]).nodes,
      nd.id = "8.8.8.8" ∧ nd.color = "#6c757d" ∧ nd.color ≠ LiveMap.nodeColor [("8.8.8.8", "8.8.8.8")] [] "8.8.8.8" :=
  external_classification_C2_amended [] [] [] "192.168.1.10" "443" "55555"
    rfl rfl rfl (by decide)

set_option maxRecDepth 200000 in
/-- C3 counterexample: a single outgoing connection with local port `1234` and
remote port `443`.  The claim requires the live builder's edge to carry the
remote port `443`; the builder stores the local port `1234`
(`localport or remoteport`), both in the raw edge tuple and in the edge
label. -/
theorem port_selection_C3_counterexample :
    (([some ⟨[], [⟨"10.0.0.1", "10.0.0.2", "1234", "443"⟩]⟩] : List LiveMap.LiveEntry).foldl
        (LiveMap.liveStepEntry []) ([], [])).2 =
      [("10.0.0.1", "10.0.0.2", "1234", false)] ∧
    (LiveMap.build_network_map [] [] []
        [some ⟨[], [⟨"10.0.0.1", "10.0.0.2", "1234", "443"⟩]⟩]).edges.map
      (fun e => (e.source, e.target, e.label)) =
      [("10.0.0.1", "10.0.0.2", "port 1234")] ∧
    ("1234" : String) ≠ "443" := by
  exact ⟨by decide, by decide, by decide⟩

/-- C3 amended: in the export aggregation pass the `AggregationKey` port is
the local port for incoming and the remote port for outgoing observations;
the live 24-hour builder instead stores, for both directions, the local port
whenever it is non-empty, else the remote port, else the empty string
(`livePort`). -/
theorem port_selection_C3_amended
    (ipToHost : List (String × String)) (host : String) (c : ReportData.Conn)
    (ip2host : List (String × String)) (lc : LiveMap.LiveConn)
    (hl : lc.localip ≠ "") (hr : lc.remoteip ≠ "") :
    (ReportData.obsKey ipToHost host "incoming" c).port = c.localport ∧
    (ReportData.obsKey ipToHost host "outgoing" c).port = c.remoteport ∧
    ((([some ⟨[lc], []⟩] : List LiveMap.LiveEntry).foldl (LiveMap.liveStepEntry ip2host)
        ([], [])).2.map (fun e => e.2.2.1)) = [LiveMap.livePort lc] ∧
    ((([some ⟨[], [lc]⟩] : List LiveMap.LiveEntry).foldl (LiveMap.liveStepEntry ip2host)
        ([], [])).2.map (fun e => e.2.2.1)) = [LiveMap.livePort lc] := by
  have hcond : ¬(lc.localip = "" ∨ lc.remoteip = "") := by
    rintro (h | h)
    · exact hl h
    · exact hr h
  refine ⟨?_, ?_, ?_, ?_⟩
  · rw [ReportData.obsKey]
    rfl
  · rw [ReportData.obsKey]
    simp
  · show ((LiveMap.liveStepConn ip2host true ([], []) lc).2.map (fun e => e.2.2.1)) = _
    unfold LiveMap.liveStepConn
    rw [if_neg hcond]
    rfl
  · show ((LiveMap.liveStepConn ip2host false ([], []) lc).2.map (fun e => e.2.2.1)) = _
    unfold LiveMap.liveStepConn
    rw [if_neg hcond]
    rfl

/-- Witness for C3 amended at a concrete connection with distinct local and
remote ports. -/
theorem port_selection_C3_amended_witness :
    (ReportData.obsKey [] "h" "incoming" ⟨"5.6.7.8", "1.2.3.4", "10", "20"⟩).port = "10" ∧
    (ReportData.obsKey [] "h" "outgoing" ⟨"5.6.7.8", "1.2.3.4", "10", "20"⟩).port = "20" ∧
    ((([some ⟨[⟨"10.0.0.1", "10.0.0.2", "1234", "443"⟩], []⟩] : List LiveMap.LiveEntry).foldl
        (LiveMap.liveStepEntry []) ([], [])).2.map (fun e => e.2.2.1)) =
      [LiveMap.livePort ⟨"10.0.0.1", "10.0.0.2", "1234", "443"⟩] ∧
    ((([some ⟨[], [⟨"10.0.0.1", "10.0.0.2", "1234", "443"⟩]⟩] : List LiveMap.LiveEntry).foldl
        (LiveMap.liveStepEntry []) ([], [])).2.map (fun e => e.2.2.1)) =
      [LiveMap.livePort ⟨"10.0.0.1", "10.0.0.2", "1234", "443"⟩] := by
  have h := port_selection_C3_amended [] "h" ⟨"5.6.7.8", "1.2.3.4", "10", "20"⟩
    [] ⟨"10.0.0.1", "10.0.0.2", "1234", "443"⟩ (by decide) (by decide)
  exact h

/-- Edge closure invariant of the embedded `DiGraph`: every edge endpoint is a
node. -/
def Drawio.edgesClosed (g : Drawio.DiGraph) : Prop :=
  ∀ e ∈ g.edges, e.1 ∈ g.nodes ∧ e.2.1 ∈ g.nodes

/-- Helper: `addNode` keeps existing nodes. -/
theorem addNode_nodes_mono {g : Drawio.DiGraph} {x : String} (n : String)
    (h : x ∈ g.nodes) : x ∈ (Drawio.addNode g n).nodes := by
  rw [Drawio.addNode]
  split
  · exact h
  · exact List.mem_append_left _ h

/-- Helper: `addNode` contains the added node. -/
theorem addNode_mem_self (g : Drawio.DiGraph) (n : String) :
    n ∈ (Drawio.addNode g n).nodes := by
  rw [Drawio.addNode]
  split
  · assumption
  · exact List.mem_append_right _ (List.mem_singleton.mpr rfl)

/-- Helper: `addNode` does not change the edges. -/
theorem addNode_edges (g : Drawio.DiGraph) (n : String) :
    (Drawio.addNode g n).edges = g.edges := by
  rw [Drawio.addNode]
  split <;> rfl

/-- Helper: `addNode` preserves edge closure. -/
theorem edgesClosed_addNode {g : Drawio.DiGraph} (n : String)
    (h : Drawio.edgesClosed g) : Drawio.edgesClosed (Drawio.addNode g n) := by
  intro e he
  rw [addNode_edges] at he
  exact ⟨addNode_nodes_mono n (h e he).1, addNode_nodes_mono n (h e he).2⟩

/-- Helper: `addEdge` preserves edge closure. -/
theorem edgesClosed_addEdge {g : Drawio.DiGraph} (s d lbl : String)
    (h : Drawio.edgesClosed g) : Drawio.edgesClosed (Drawio.addEdge g s d lbl) := by
  have hg' : Drawio.edgesClosed (Drawio.addNode (Drawio.addNode g s) d) :=
    edgesClosed_addNode d (edgesClosed_addNode s h)
  have hs : s ∈ (Drawio.addNode (Drawio.addNode g s) d).nodes :=
    addNode_nodes_mono d (addNode_mem_self g s)
  have hd : d ∈ (Drawio.addNode (Drawio.addNode g s) d).nodes :=
    addNode_mem_self (Drawio.addNode g s) d
  rw [Drawio.addEdge]
  split
  · intro e he
    simp only [List.mem_map] at he
    obtain ⟨e₀, he₀, rfl⟩ := he
    split
    · exact ⟨hs, hd⟩
    · exact hg' e₀ he₀
  · intro e he
    rcases List.mem_append.mp he with he₀ | hnew
    · exact hg' e he₀
    · rw [List.mem_singleton.mp hnew]
      exact ⟨hs, hd⟩

/-- Helper: the per-host subgraph satisfies edge closure. -/
theorem edgesClosed_hostGraph (excluded : List String) (recs : List ReportData.Row) :
    Drawio.edgesClosed (Drawio.hostGraph excluded recs) := by
  rw [Drawio.hostGraph]
  have key : ∀ (l : List ReportData.Row) (g : Drawio.DiGraph), Drawio.edgesClosed g →
      Drawio.edgesClosed (l.foldl
        (fun g r =>
          if r.remote_host ∈ excluded then g
          else
            let src := if r.type = "outgoing" then r.local_host else r.remote_host
            let dst := if r.type = "outgoing" then r.remote_host else r.local_host
            let lbl := if r.port ≠ "" then r.type ++ " (port=" ++ r.port ++ ")" else r.type
            Drawio.addEdge (Drawio.addNode (Drawio.addNode g src) dst) src dst lbl) g) := by
    intro l
    induction l with
    | nil => intro g hg; exact hg
    | cons r t ih =>
      intro g hg
      rw [List.foldl_cons]
      apply ih
      split
      · exact hg
      · exact edgesClosed_addEdge _ _ _ (edgesClosed_addNode _ (edgesClosed_addNode _ hg))
  exact key recs _ (fun e he => absurd he (List.not_mem_nil e))

/-- Helper: the first-occurrence index of a present element is within
bounds. -/
theorem idxOf_lt_length {l : List String} {n : String} (h : n ∈ l) :
    Drawio.idxOf l n < l.length := by
  induction l with
  | nil => cases h
  | cons a t ih =>
    rw [Drawio.idxOf]
    split
    · simp
    · rcases List.mem_cons.mp h with h' | h'
      · simp_all
      · simpa using ih h'

/-- Helper: the cell id of every graph node is among the page's node cell
ids. -/
theorem cellId_mem_nodeIds {g : Drawio.DiGraph} {n : String} (h : n ∈ g.nodes) :
    Drawio.cellId g n ∈
      (List.range g.nodes.length).map (fun k => "node" ++ toString (k + 1)) := by
  rw [Drawio.cellId]
  exact List.mem_map_of_mem _ (List.mem_range.mpr (idxOf_lt_length h))

/-- C8: the draw.io document contains exactly one page per local host that is
not excluded and whose per-host subgraph (rows with excluded remote hosts
dropped) has at least one node — in grouping order; each page is named by the
host truncated to 31 characters; and every edge cell on a page references two
node cell ids that are both defined on that same page. -/
theorem drawio_structure_C8 (excluded : List String) (rows : List ReportData.Row) :
    (Drawio.build_drawio_per_host excluded rows).map (fun p => p.host) =
      (Drawio.firstDedup (rows.map (fun r => r.local_host))).filter
        (fun h => !(decide (h ∈ excluded)) &&
          !(Drawio.hostGraph excluded (rows.filter (fun r => r.local_host = h))).nodes.isEmpty) ∧
    (∀ p ∈ Drawio.build_drawio_per_host excluded rows, p.name = p.host.take 31) ∧
    (∀ p ∈ Drawio.build_drawio_per_host excluded rows, ∀ e ∈ p.edgeCells,
      e.1 ∈ p.nodeIds ∧ e.2.1 ∈ p.nodeIds) := by
  refine ⟨?_, ?_, ?_⟩
  · rw [Drawio.build_drawio_per_host]
    generalize Drawio.firstDedup (rows.map (fun r => r.local_host)) = hs
    induction hs with
    | nil => rfl
    | cons h t ih =>
      rw [List.filterMap_cons, List.filter_cons]
      by_cases hex : h ∈ excluded
      · rw [if_pos hex]
        have hcond : (!decide (h ∈ excluded) &&
            !(Drawio.hostGraph excluded
              (rows.filter (fun r => r.local_host = h))).nodes.isEmpty) = false := by
          simp [hex]
        rw [hcond, if_neg Bool.false_ne_true]
        exact ih
      · rw [if_neg hex]
        by_cases hempty :
            (Drawio.hostGraph excluded
              (rows.filter (fun r => r.local_host = h))).nodes.isEmpty = true
        · rw [if_pos hempty]
          have hcond : (!decide (h ∈ excluded) &&
              !(Drawio.hostGraph excluded
                (rows.filter (fun r => r.local_host = h))).nodes.isEmpty) = false := by
            simp [hempty]
          rw [hcond, if_neg Bool.false_ne_true]
          exact ih
        · rw [if_neg hempty, List.map_cons]
          have hcond : (!decide (h ∈ excluded) &&
              !(Drawio.hostGraph excluded
                (rows.filter (fun r => r.local_host = h))).nodes.isEmpty) = true := by
            rw [Bool.not_eq_true] at hempty
            simp [hex, hempty]
          rw [hcond, if_pos rfl, ih]
          rfl
  · intro p hp
    rw [Drawio.build_drawio_per_host] at hp
    obtain ⟨h, -, hf⟩ := List.mem_filterMap.mp hp
    split at hf
    · cases hf
    · split at hf
      · cases hf
      · rw [← Option.some.inj hf]
        rw [Drawio.buildPage]
  · intro p hp e he
    rw [Drawio.build_drawio_per_host] at hp
    obtain ⟨h, -, hf⟩ := List.mem_filterMap.mp hp
    split at hf
    · cases hf
    · split at hf
      · cases hf
      · rw [← Option.some.inj hf] at he ⊢
        rw [Drawio.buildPage] at he ⊢
        simp only [List.mem_map] at he
        obtain ⟨e₀, he₀, rfl⟩ := he
        have hc := edgesClosed_hostGraph excluded (rows.filter (fun r => r.local_host = h)) e₀ he₀
        exact ⟨cellId_mem_nodeIds hc.1, cellId_mem_nodeIds hc.2⟩

set_option maxRecDepth 200000 in
/-- Witness for C8 at a concrete single-row input: the produced page is named
by its host and its one edge cell references the two node cells defined on the
page. -/
theorem drawio_structure_C8_witness :
    (⟨"web1", "web1", ["node1", "node2"],
        [("node1", "node2", "outgoing (port=443)")]⟩ : Drawio.Page).name =
      (⟨"web1", "web1", ["node1", "node2"],
        [("node1", "node2", "outgoing (port=443)")]⟩ : Drawio.Page).host.take 31 ∧
    ("node1" ∈ (⟨"web1", "web1", ["node1", "node2"],
        [("node1", "node2", "outgoing (port=443)")]⟩ : Drawio.Page).nodeIds ∧
     "node2" ∈ (⟨"web1", "web1", ["node1", "node2"],
        [("node1", "node2", "outgoing (port=443)")]⟩ : Drawio.Page).nodeIds) :=
  ⟨(drawio_structure_C8 ["Zabbix server"]
      [⟨"outgoing", "web1", "10.0.0.1", "db1", "10.0.0.5", "443", 3, 100⟩]).2.1
      ⟨"web1", "web1", ["node1", "node2"], [("node1", "node2", "outgoing (port=443)")]⟩
      (by decide),
   (drawio_structure_C8 ["Zabbix server"]
      [⟨"outgoing", "web1", "10.0.0.1", "db1", "10.0.0.5", "443", 3, 100⟩]).2.2
      ⟨"web1", "web1", ["node1", "node2"], [("node1", "node2", "outgoing (port=443)")]⟩
      (by decide) ("node1", "node2", "outgoing (port=443)") (by decide)⟩

/-- Helper: every pair index visited by the nested loop satisfies
`i < j < n`. -/
theorem pairList_mem_bounds {n : Nat} {ij : Nat × Nat} (h : ij ∈ Drawio.pairList n) :
    ij.1 < ij.2 ∧ ij.2 < n := by
  rw [Drawio.pairList] at h
  simp only [List.mem_flatMap, List.mem_map, List.mem_range] at h
  obtain ⟨i, hi, j, hj, rfl⟩ := h
  rw [List.mem_range'_1] at hj
  constructor <;> omega

/-- Helper: updating one list slot changes a mapped sum by the difference at
that slot. -/
theorem sum_map_set (f : ℚ × ℚ → ℚ) :
    ∀ (l : Drawio.PosList) (k : Nat) (v : ℚ × ℚ), k < l.length →
      ((l.set k v).map f).sum = (l.map f).sum - f (l.getD k (0, 0)) + f v := by
  intro l
  induction l with
  | nil => intro k v hk; exact absurd hk (Nat.not_lt_zero k)
  | cons a t ih =>
    intro k v hk
    cases k with
    | zero =>
      simp only [List.set_cons_zero, List.map_cons, List.sum_cons, List.getD_cons_zero]
      ring
    | succ k' =>
      rw [List.set_cons_succ, List.getD_cons_succ, List.map_cons, List.map_cons,
        List.sum_cons, List.sum_cons, ih k' v (Nat.lt_of_succ_lt_succ hk)]
      ring

/-- Helper: one pair adjustment moves the two nodes by exactly opposite
offsets, so both coordinate sums are unchanged; the position count is also
unchanged. -/
theorem pairUpdate_sums (w h pad : ℚ) (pos : Drawio.PosList) (ij : Nat × Nat)
    (hij : ij.1 < ij.2) (hj : ij.2 < pos.length) :
    ((Drawio.pairUpdate w h pad pos ij).1.map Prod.fst).sum = (pos.map Prod.fst).sum ∧
    ((Drawio.pairUpdate w h pad pos ij).1.map Prod.snd).sum = (pos.map Prod.snd).sum ∧
    (Drawio.pairUpdate w h pad pos ij).1.length = pos.length := by
  have hi : ij.1 < pos.length := Nat.lt_trans hij hj
  have hne : ij.1 ≠ ij.2 := Nat.ne_of_lt hij
  rw [Drawio.pairUpdate]
  split
  · have hgd : ∀ v : ℚ × ℚ, (pos.set ij.1 v).getD ij.2 (0, 0) = pos.getD ij.2 (0, 0) := by
      intro v
      rw [List.getD_eq_getElem?_getD, List.getD_eq_getElem?_getD, List.getElem?_set_ne hne]
    have hlen : ∀ v : ℚ × ℚ, ij.2 < (pos.set ij.1 v).length := by
      intro v
      rw [List.length_set]
      exact hj
    refine ⟨?_, ?_, ?_⟩
    · rw [sum_map_set Prod.fst _ _ _ (hlen _), sum_map_set Prod.fst _ _ _ hi, hgd]
      ring
    · rw [sum_map_set Prod.snd _ _ _ (hlen _), sum_map_set Prod.snd _ _ _ hi, hgd]
      ring
    · rw [List.length_set, List.length_set]
  · exact ⟨rfl, rfl, rfl⟩

/-- Helper: one full sweep of the pair loop leaves both coordinate sums and
the position count unchanged. -/
theorem sweep_sums (w h pad : ℚ) (pos : Drawio.PosList) :
    ((Drawio.sweep w h pad pos).1.map Prod.fst).sum = (pos.map Prod.fst).sum ∧
    ((Drawio.sweep w h pad pos).1.map Prod.snd).sum = (pos.map Prod.snd).sum ∧
    (Drawio.sweep w h pad pos).1.length = pos.length := by
  rw [Drawio.sweep]
  have key : ∀ (ps : List (Nat × Nat)) (acc : Drawio.PosList × Bool),
      (∀ ij ∈ ps, ij.1 < ij.2 ∧ ij.2 < pos.length) →
      acc.1.length = pos.length →
      (acc.1.map Prod.fst).sum = (pos.map Prod.fst).sum →
      (acc.1.map Prod.snd).sum = (pos.map Prod.snd).sum →
      (((ps.foldl (fun acc ij =>
          ((Drawio.pairUpdate w h pad acc.1 ij).1,
            acc.2 || (Drawio.pairUpdate w h pad acc.1 ij).2)) acc).1.map Prod.fst).sum =
          (pos.map Prod.fst).sum ∧
       ((ps.foldl (fun acc ij =>
          ((Drawio.pairUpdate w h pad acc.1 ij).1,
            acc.2 || (Drawio.pairUpdate w h pad acc.1 ij).2)) acc).1.map Prod.snd).sum =
          (pos.map Prod.snd).sum ∧
       (ps.foldl (fun acc ij =>
          ((Drawio.pairUpdate w h pad acc.1 ij).1,
            acc.2 || (Drawio.pairUpdate w h pad acc.1 ij).2)) acc).1.length = pos.length) := by
    intro ps
    induction ps with
    | nil => intro acc _ h1 h2 h3; exact ⟨h2, h3, h1⟩
    | cons ij t ih =>
      intro acc hb hlen hx hy
      rw [List.foldl_cons]
      have hbij := hb ij (List.mem_cons_self ij t)
      have hup := pairUpdate_sums w h pad acc.1 ij hbij.1 (hlen ▸ hbij.2)
      exact ih _ (fun p hp => hb p (List.mem_cons_of_mem _ hp))
        (hup.2.2.trans hlen) (hup.1.trans hx) (hup.2.1.trans hy)
  exact key (Drawio.pairList pos.length) (pos, false)
    (fun ij hij => pairList_mem_bounds hij) rfl rfl rfl

/-- C9: `separate_overlaps` preserves the sum of all x-coordinates and the sum
of all y-coordinates — the layout centroid — for every input position list:
each pair adjustment moves the two nodes by exactly opposite offsets. -/
theorem centroid_invariant_C9 (pos : Drawio.PosList) :
    ((Drawio.separate_overlaps pos).map Prod.fst).sum = (pos.map Prod.fst).sum ∧
    ((Drawio.separate_overlaps pos).map Prod.snd).sum = (pos.map Prod.snd).sum := by
  rw [Drawio.separate_overlaps]
  have key : ∀ (fuel : Nat) (p : Drawio.PosList),
      ((Drawio.relax 160 80 40 fuel p).map Prod.fst).sum = (p.map Prod.fst).sum ∧
      ((Drawio.relax 160 80 40 fuel p).map Prod.snd).sum = (p.map Prod.snd).sum := by
    intro fuel
    induction fuel with
    | zero => intro p; exact ⟨rfl, rfl⟩
    | succ n ih =>
      intro p
      rw [Drawio.relax]
      split
      · exact ⟨(ih _).1.trans (sweep_sums 160 80 40 p).1,
          (ih _).2.trans (sweep_sums 160 80 40 p).2.1⟩
      · exact ⟨(sweep_sums 160 80 40 p).1, (sweep_sums 160 80 40 p).2.1⟩
  exact key 800 pos

/-- Helper: on two coincident nodes the first sweep takes the default
direction `dx = 1`, computes the half-pushes `px = 199/2` and `py = -60`
(the `dy = 0` sign picks `-1`), and moves the nodes by exactly opposite
offsets to `(x - 199/2, y + 60)` and `(x + 199/2, y - 60)`. -/
theorem sweep_coincident (x y : ℚ) :
    Drawio.sweep 160 80 40 [(x, y), (x, y)] =
      ([(x - 199 / 2, y + 60), (x + 199 / 2, y - 60)], true) := by
  have h1 : ¬(x + 160 < x) := by linarith
  have h3 : ¬(y + 80 < y) := by linarith
  rw [Drawio.sweep]
  rw [show Drawio.pairList ([(x, y), (x, y)] : Drawio.PosList).length = [(0, 1)] from rfl]
  rw [List.foldl_cons, List.foldl_nil]
  show ((Drawio.pairUpdate 160 80 40 [(x, y), (x, y)] (0, 1)).1,
    false || (Drawio.pairUpdate 160 80 40 [(x, y), (x, y)] (0, 1)).2) = _
  rw [Drawio.pairUpdate]
  dsimp only [Drawio.overlapB, Drawio.mkBox, List.getD_cons_zero, List.getD_cons_succ]
  rw [decide_eq_false h1, decide_eq_false h3]
  rw [if_pos (show (!(false || false || false || false)) = true from rfl)]
  simp only [sub_self, and_self, if_true]
  rw [abs_one, abs_zero]
  rw [if_pos (show (1 : ℚ) < 160 + 40 by norm_num)]
  rw [if_pos (show (1 : ℚ) > 0 by norm_num)]
  rw [if_pos (show (0 : ℚ) < 80 + 40 by norm_num)]
  rw [if_neg (show ¬((0 : ℚ) > 0) by norm_num)]
  dsimp only [List.set_cons_zero, List.set_cons_succ]
  norm_num
  ring

/-- Helper: once the two nodes sit `199/2` apart in x, their boxes no longer
overlap, so the next sweep moves nothing and reports no movement. -/
theorem sweep_separated (x y : ℚ) :
    Drawio.sweep 160 80 40 [(x - 199 / 2, y + 60), (x + 199 / 2, y - 60)] =
      ([(x - 199 / 2, y + 60), (x + 199 / 2, y - 60)], false) := by
  have h : x - 199 / 2 + 160 < x + 199 / 2 := by linarith
  rw [Drawio.sweep]
  rw [show Drawio.pairList
    ([(x - 199 / 2, y + 60), (x + 199 / 2, y - 60)] : Drawio.PosList).length = [(0, 1)] from rfl]
  rw [List.foldl_cons, List.foldl_nil]
  show ((Drawio.pairUpdate 160 80 40 [(x - 199 / 2, y + 60), (x + 199 / 2, y - 60)] (0, 1)).1,
    false || (Drawio.pairUpdate 160 80 40
      [(x - 199 / 2, y + 60), (x + 199 / 2, y - 60)] (0, 1)).2) = _
  rw [Drawio.pairUpdate]
  dsimp only [Drawio.overlapB, Drawio.mkBox, List.getD_cons_zero, List.getD_cons_succ]
  rw [decide_eq_true h]
  simp only [Bool.true_or, Bool.not_true]
  rw [if_neg Bool.false_ne_true]
  rfl

/-- Helper: the outer relaxation loop on two coincident nodes performs exactly
one moving sweep, then a movement-free sweep, and stops. -/
theorem relax_coincident (x y : ℚ) :
    Drawio.relax 160 80 40 800 [(x, y), (x, y)] =
      [(x - 199 / 2, y + 60), (x + 199 / 2, y - 60)] := by
  rw [show (800 : Nat) = 799 + 1 from rfl, Drawio.relax, sweep_coincident]
  rw [if_pos (show (([(x - 199 / 2, y + 60), (x + 199 / 2, y - 60)], true) :
      Drawio.PosList × Bool).2 = true from rfl)]
  rw [show (799 : Nat) = 798 + 1 from rfl, Drawio.relax]
  rw [show (([(x - 199 / 2, y + 60), (x + 199 / 2, y - 60)], true) :
      Drawio.PosList × Bool).1 = [(x - 199 / 2, y + 60), (x + 199 / 2, y - 60)] from rfl]
  rw [sweep_separated]
  rw [if_neg (show ¬((([(x - 199 / 2, y + 60), (x + 199 / 2, y - 60)], false) :
      Drawio.PosList × Bool).2 = true) from Bool.false_ne_true)]

/-- C5: for two nodes with identical initial coordinates and the default
footprint (width 160, height 80, padding 40), `separate_overlaps` returns the
positions `(x - 199/2, y + 60)` and `(x + 199/2, y - 60)`, and the two nodes'
axis-aligned bounding rectangles no longer overlap (by the code's own overlap
test, which even counts touching boxes as overlapping). -/
theorem collision_separation_C5 (x y : ℚ) :
    Drawio.separate_overlaps [(x, y), (x, y)] =
      [(x - 199 / 2, y + 60), (x + 199 / 2, y - 60)] ∧
    Drawio.overlapB
      (Drawio.mkBox 160 80 ((Drawio.separate_overlaps [(x, y), (x, y)]).getD 0 (0, 0)))
      (Drawio.mkBox 160 80 ((Drawio.separate_overlaps [(x, y), (x, y)]).getD 1 (0, 0))) =
      false := by
  have hrel : Drawio.separate_overlaps [(x, y), (x, y)] =
      [(x - 199 / 2, y + 60), (x + 199 / 2, y - 60)] := by
    rw [Drawio.separate_overlaps]
    exact relax_coincident x y
  refine ⟨hrel, ?_⟩
  rw [hrel]
  dsimp only [Drawio.overlapB, Drawio.mkBox, List.getD_cons_zero, List.getD_cons_succ]
  rw [decide_eq_true (show x - 199 / 2 + 160 < x + 199 / 2 by linarith)]
  simp only [Bool.true_or, Bool.not_true]

end ZabbixNetworkMap
